import Mathlib

/-!
# Verification of the UDP reliable-transport protocol (Network-design repository)

Shallow embedding of the packet codec, segmenter, Go-Back-N sender loop,
receiver loop and handshake logic of `UDP/udpclient.py` and `UDP/udpserver.py`.

Bytes are modelled as natural numbers below 256; byte strings as `List Nat`.
The `struct` header format `'!BHHHH'` (network byte order: one byte for the
packet type, then four big-endian two-byte fields) is modelled by explicit
byte lists.  Python functions that raise become `Option` / `Except` values.
-/

/-- Errors raised by `parse_packet` (`ValueError` in the Python source) and by
the modelled `struct.pack` (which raises `struct.error` on out-of-range
fields). -/
inductive ParseError where
  | tooShort
  | checksumMismatch
  | packError
  deriving DecidableEq, Repr

/-- `compute_checksum` from `udpclient.py` / `udpserver.py`:
`sum(packet) % 65536`. -/
def compute_checksum (packet : List Nat) : Nat :=
  packet.sum % 65536

/-- `struct.pack('!BHHHH', packet_type, seq_num, ack_num, payload_len, checksum)`:
one byte for the type, then four big-endian 16-bit fields.  Returns `none`
(modelling `struct.error`) when a field is out of range. -/
def packHeader (packet_type seq_num ack_num payload_len checksum : Nat) :
    Option (List Nat) :=
  if packet_type ≤ 255 ∧ seq_num ≤ 65535 ∧ ack_num ≤ 65535 ∧
      payload_len ≤ 65535 ∧ checksum ≤ 65535 then
    some [packet_type,
          seq_num / 256, seq_num % 256,
          ack_num / 256, ack_num % 256,
          payload_len / 256, payload_len % 256,
          checksum / 256, checksum % 256]
  else
    none

/-- `header_size = struct.calcsize('!BHHHH')`. -/
def header_size : Nat := 9

/-- `create_packet(packet_type, seq_num, ack_num, payload)` from the source:
pack the header with checksum 0, compute the checksum of header + payload,
re-pack the header with the real checksum and append the payload. -/
def create_packet (packet_type seq_num ack_num : Nat) (payload : List Nat) :
    Option (List Nat) :=
  match packHeader packet_type seq_num ack_num payload.length 0 with
  | none => none
  | some header_no_checksum =>
    let checksum := compute_checksum (header_no_checksum ++ payload)
    match packHeader packet_type seq_num ack_num payload.length checksum with
    | none => none
    | some header => some (header ++ payload)

/-- `parse_packet(packet)` from the source: reject packets shorter than the
9-byte header (`packet[:header_size]` / `packet[header_size:]` slicing is
modelled by matching off the first nine bytes), unpack the header fields,
re-pack the header with checksum 0, recompute the checksum over it plus the
payload bytes, and compare with the transmitted checksum. -/
def parse_packet (packet : List Nat) :
    Except ParseError (Nat × Nat × Nat × Nat × Nat × List Nat) :=
  match packet with
  | b0 :: b1 :: b2 :: b3 :: b4 :: b5 :: b6 :: b7 :: b8 :: payload_bytes =>
    let packet_type := b0
    let seq_num := b1 * 256 + b2
    let ack_num := b3 * 256 + b4
    let payload_len := b5 * 256 + b6
    let checksum := b7 * 256 + b8
    match packHeader packet_type seq_num ack_num payload_len 0 with
    | none => .error .packError
    | some header_no_checksum =>
      if compute_checksum (header_no_checksum ++ payload_bytes) ≠ checksum then
        .error .checksumMismatch
      else
        .ok (packet_type, seq_num, ack_num, payload_len, checksum, payload_bytes)
  | _ => .error .tooShort

/-- The checksum value stored by `create_packet packet_type seq_num ack_num payload`. -/
def create_checksum (t s a : Nat) (pl : List Nat) : Nat :=
  (t + s / 256 + s % 256 + a / 256 + a % 256 +
    pl.length / 256 + pl.length % 256 + pl.sum) % 65536

lemma parse_packet_cons (b0 b1 b2 b3 b4 b5 b6 b7 b8 : Nat) (rest : List Nat)
    (h0 : b0 < 256) (h1 : b1 < 256) (h2 : b2 < 256) (h3 : b3 < 256)
    (h4 : b4 < 256) (h5 : b5 < 256) (h6 : b6 < 256) :
    parse_packet (b0 :: b1 :: b2 :: b3 :: b4 :: b5 :: b6 :: b7 :: b8 :: rest) =
      if (b0 + b1 + b2 + b3 + b4 + b5 + b6 + rest.sum) % 65536 = b7 * 256 + b8 then
        .ok (b0, b1 * 256 + b2, b3 * 256 + b4, b5 * 256 + b6, b7 * 256 + b8, rest)
      else
        .error .checksumMismatch := by
  have hs : b1 * 256 + b2 ≤ 65535 := by omega
  have ha : b3 * 256 + b4 ≤ 65535 := by omega
  have hl : b5 * 256 + b6 ≤ 65535 := by omega
  have hdiv1 : (b1 * 256 + b2) / 256 = b1 := by omega
  have hmod1 : (b1 * 256 + b2) % 256 = b2 := by omega
  have hdiv2 : (b3 * 256 + b4) / 256 = b3 := by omega
  have hmod2 : (b3 * 256 + b4) % 256 = b4 := by omega
  have hdiv3 : (b5 * 256 + b6) / 256 = b5 := by omega
  have hmod3 : (b5 * 256 + b6) % 256 = b6 := by omega
  simp only [parse_packet, packHeader, compute_checksum]
  rw [if_pos ⟨by omega, hs, ha, hl, by omega⟩]
  simp only [hdiv1, hmod1, hdiv2, hmod2, hdiv3, hmod3]
  simp only [List.cons_append, List.nil_append, List.sum_cons]
  by_cases hcs : (b0 + (b1 + (b2 + (b3 + (b4 + (b5 + (b6 + (0 + (0 + rest.sum))))))))) % 65536
      = b7 * 256 + b8
  · rw [if_neg (by omega), if_pos (by omega)]
  · rw [if_pos (by omega), if_neg (by omega)]

lemma create_packet_eq (t s a : Nat) (pl : List Nat)
    (ht : t < 256) (hs : s < 65536) (ha : a < 65536) (hl : pl.length < 65536) :
    create_packet t s a pl =
      some (t :: s / 256 :: s % 256 :: a / 256 :: a % 256 ::
        pl.length / 256 :: pl.length % 256 ::
        create_checksum t s a pl / 256 :: create_checksum t s a pl % 256 :: pl) := by
  have hcs : create_checksum t s a pl ≤ 65535 := by
    have := Nat.mod_lt (t + s / 256 + s % 256 + a / 256 + a % 256 +
      pl.length / 256 + pl.length % 256 + pl.sum) (show 0 < 65536 by omega)
    simp only [create_checksum]
    omega
  simp only [create_packet, packHeader]
  rw [if_pos ⟨by omega, by omega, by omega, by omega, by omega⟩]
  simp only [compute_checksum, List.cons_append, List.nil_append, List.sum_cons]
  rw [if_pos ⟨by omega, by omega, by omega, by omega, by
    simp only [create_checksum] at hcs ⊢
    omega⟩]
  simp only [create_checksum, List.cons_append, List.nil_append]
  norm_num
  constructor <;> omega

lemma create_parse_roundtrip (t s a : Nat) (pl : List Nat)
    (ht : t < 256) (hs : s < 65536) (ha : a < 65536) (hl : pl.length < 65536) :
    parse_packet ((create_packet t s a pl).getD []) =
      .ok (t, s, a, pl.length, create_checksum t s a pl, pl) := by
  rw [create_packet_eq t s a pl ht hs ha hl]
  simp only [Option.getD_some]
  rw [parse_packet_cons _ _ _ _ _ _ _ _ _ _ ht (by omega) (by omega) (by omega)
    (by omega) (by omega) (by omega)]
  have hcssum : (t + s / 256 + s % 256 + a / 256 + a % 256 +
      pl.length / 256 + pl.length % 256 + pl.sum) % 65536 =
      create_checksum t s a pl / 256 * 256 + create_checksum t s a pl % 256 := by
    simp only [create_checksum]
    omega
  rw [if_pos hcssum]
  simp only [Except.ok.injEq, Prod.mk.injEq]
  exact ⟨trivial, by omega, by omega, by omega, by omega, trivial⟩

/-- C1: Codec round-trip — for every `packet_type < 256`, `seq, ack < 65536`
and every payload of length below 65536, `parse_packet` applied to the packet
built by `create_packet packet_type seq ack payload` succeeds and returns
exactly that `packet_type`, `seq`, `ack`, the payload length as
`payloadLength`, and the identical payload bytes. -/
theorem codec_round_trip (t s a : Nat) (pl : List Nat)
    (ht : t < 256) (hs : s < 65536) (ha : a < 65536) (hl : pl.length < 65536) :
    ∃ pkt c, create_packet t s a pl = some pkt ∧
      parse_packet pkt = .ok (t, s, a, pl.length, c, pl) := by
  refine ⟨(create_packet t s a pl).getD [], create_checksum t s a pl, ?_, ?_⟩
  · rw [create_packet_eq t s a pl ht hs ha hl]
    simp
  · exact create_parse_roundtrip t s a pl ht hs ha hl

theorem codec_round_trip_witness :
    ∃ pkt c, create_packet 2 5 7 [10, 20, 30] = some pkt ∧
      parse_packet pkt = .ok (2, 5, 7, 3, c, [10, 20, 30]) :=
  codec_round_trip 2 5 7 [10, 20, 30] (by decide) (by decide) (by decide) (by decide)

/-- Flipping the single bit `k` (with `k < 8`) of the byte at position `p` of a
byte string: the byte is replaced by its xor with `2 ^ k`. -/
def flip_bit (bs : List Nat) (p k : Nat) : List Nat :=
  bs.set p (bs.getD p 0 ^^^ 2 ^ k)

lemma xor_pow_ne (b k : Nat) : b ^^^ 2 ^ k ≠ b := by
  intro h
  have h0 : b ^^^ 2 ^ k = b ^^^ 0 := by simpa using h
  have h1 : 2 ^ k = 0 := Nat.xor_right_inj.mp h0
  have h2 : 0 < 2 ^ k := Nat.two_pow_pos k
  omega

lemma xor_pow_lt (b k : Nat) (hb : b < 256) (hk : k < 8) : b ^^^ 2 ^ k < 256 := by
  have h1 : (2:Nat) ^ k < 2 ^ 8 := Nat.pow_lt_pow_right (by omega) hk
  have h256 : (256:Nat) = 2 ^ 8 := by norm_num
  rw [h256] at hb ⊢
  exact Nat.bitwise_lt hb h1

lemma sum_set_add (l : List Nat) : ∀ (j x : Nat), j < l.length →
    (l.set j x).sum + l.getD j 0 = l.sum + x := by
  induction l with
  | nil => intro j x hj; simp at hj
  | cons hd tl ih =>
    intro j x hj
    cases j with
    | zero =>
      simp only [List.set_cons_zero, List.sum_cons, List.getD_cons_zero]
      omega
    | succ j =>
      simp only [List.set_cons_succ, List.sum_cons, List.getD_cons_succ]
      have := ih j x (by simpa using hj)
      omega

lemma parse_mismatch_of_sum_ne (b0 b1 b2 b3 b4 b5 b6 b7 b8 : Nat) (rest : List Nat)
    (h0 : b0 < 256) (h1 : b1 < 256) (h2 : b2 < 256) (h3 : b3 < 256)
    (h4 : b4 < 256) (h5 : b5 < 256) (h6 : b6 < 256)
    (hsum : ¬ (b0 + b1 + b2 + b3 + b4 + b5 + b6 + rest.sum) % 65536 = b7 * 256 + b8) :
    parse_packet (b0 :: b1 :: b2 :: b3 :: b4 :: b5 :: b6 :: b7 :: b8 :: rest) =
      .error .checksumMismatch := by
  rw [parse_packet_cons _ _ _ _ _ _ _ _ _ _ h0 h1 h2 h3 h4 h5 h6, if_neg hsum]

/-- C2: Single-bit-flip detection — for every packet produced by
`create_packet` with valid field values and every single bit position in the
encoded bytes, `parse_packet` applied to the packet with that one bit flipped
fails with the checksum-mismatch error. -/
theorem single_bit_flip_detected (t s a : Nat) (pl pkt : List Nat)
    (ht : t < 256) (hs : s < 65536) (ha : a < 65536) (hl : pl.length < 65536)
    (hpl : ∀ b ∈ pl, b < 256)
    (hcreate : create_packet t s a pl = some pkt)
    (p k : Nat) (hp : p < pkt.length) (hk : k < 8) :
    parse_packet (flip_bit pkt p k) = .error .checksumMismatch := by
  rw [create_packet_eq t s a pl ht hs ha hl] at hcreate
  injection hcreate with hpkt
  subst hpkt
  have hC : create_checksum t s a pl < 65536 := Nat.mod_lt _ (by omega)
  have hCdef : create_checksum t s a pl =
      (t + s / 256 + s % 256 + a / 256 + a % 256 +
        pl.length / 256 + pl.length % 256 + pl.sum) % 65536 := rfl
  have hb1 : s / 256 < 256 := by omega
  have hb2 : s % 256 < 256 := by omega
  have hb3 : a / 256 < 256 := by omega
  have hb4 : a % 256 < 256 := by omega
  have hb5 : pl.length / 256 < 256 := by omega
  have hb6 : pl.length % 256 < 256 := by omega
  have hb7 : create_checksum t s a pl / 256 < 256 := by omega
  have hb8 : create_checksum t s a pl % 256 < 256 := by omega
  simp only [List.length_cons] at hp
  rcases p with _ | _ | _ | _ | _ | _ | _ | _ | _ | j
  · have hne := xor_pow_ne t k
    have hlt := xor_pow_lt t k ht hk
    simp only [flip_bit, List.getD_cons_zero, List.getD_cons_succ,
      List.set_cons_zero, List.set_cons_succ]
    exact parse_mismatch_of_sum_ne _ _ _ _ _ _ _ _ _ _
      hlt hb1 hb2 hb3 hb4 hb5 hb6 (by omega)
  · have hne := xor_pow_ne (s / 256) k
    have hlt := xor_pow_lt (s / 256) k hb1 hk
    simp only [flip_bit, List.getD_cons_zero, List.getD_cons_succ,
      List.set_cons_zero, List.set_cons_succ]
    exact parse_mismatch_of_sum_ne _ _ _ _ _ _ _ _ _ _
      ht hlt hb2 hb3 hb4 hb5 hb6 (by omega)
  · have hne := xor_pow_ne (s % 256) k
    have hlt := xor_pow_lt (s % 256) k hb2 hk
    simp only [flip_bit, List.getD_cons_zero, List.getD_cons_succ,
      List.set_cons_zero, List.set_cons_succ]
    exact parse_mismatch_of_sum_ne _ _ _ _ _ _ _ _ _ _
      ht hb1 hlt hb3 hb4 hb5 hb6 (by omega)
  · have hne := xor_pow_ne (a / 256) k
    have hlt := xor_pow_lt (a / 256) k hb3 hk
    simp only [flip_bit, List.getD_cons_zero, List.getD_cons_succ,
      List.set_cons_zero, List.set_cons_succ]
    exact parse_mismatch_of_sum_ne _ _ _ _ _ _ _ _ _ _
      ht hb1 hb2 hlt hb4 hb5 hb6 (by omega)
  · have hne := xor_pow_ne (a % 256) k
    have hlt := xor_pow_lt (a % 256) k hb4 hk
    simp only [flip_bit, List.getD_cons_zero, List.getD_cons_succ,
      List.set_cons_zero, List.set_cons_succ]
    exact parse_mismatch_of_sum_ne _ _ _ _ _ _ _ _ _ _
      ht hb1 hb2 hb3 hlt hb5 hb6 (by omega)
  · have hne := xor_pow_ne (pl.length / 256) k
    have hlt := xor_pow_lt (pl.length / 256) k hb5 hk
    simp only [flip_bit, List.getD_cons_zero, List.getD_cons_succ,
      List.set_cons_zero, List.set_cons_succ]
    exact parse_mismatch_of_sum_ne _ _ _ _ _ _ _ _ _ _
      ht hb1 hb2 hb3 hb4 hlt hb6 (by omega)
  · have hne := xor_pow_ne (pl.length % 256) k
    have hlt := xor_pow_lt (pl.length % 256) k hb6 hk
    simp only [flip_bit, List.getD_cons_zero, List.getD_cons_succ,
      List.set_cons_zero, List.set_cons_succ]
    exact parse_mismatch_of_sum_ne _ _ _ _ _ _ _ _ _ _
      ht hb1 hb2 hb3 hb4 hb5 hlt (by omega)
  · have hne := xor_pow_ne (create_checksum t s a pl / 256) k
    have hlt := xor_pow_lt (create_checksum t s a pl / 256) k hb7 hk
    simp only [flip_bit, List.getD_cons_zero, List.getD_cons_succ,
      List.set_cons_zero, List.set_cons_succ]
    exact parse_mismatch_of_sum_ne _ _ _ _ _ _ _ _ _ _
      ht hb1 hb2 hb3 hb4 hb5 hb6 (by omega)
  · have hne := xor_pow_ne (create_checksum t s a pl % 256) k
    have hlt := xor_pow_lt (create_checksum t s a pl % 256) k hb8 hk
    simp only [flip_bit, List.getD_cons_zero, List.getD_cons_succ,
      List.set_cons_zero, List.set_cons_succ]
    exact parse_mismatch_of_sum_ne _ _ _ _ _ _ _ _ _ _
      ht hb1 hb2 hb3 hb4 hb5 hb6 (by omega)
  · have hj : j < pl.length := by omega
    have hbj : pl.getD j 0 < 256 := by
      rw [List.getD_eq_getElem pl 0 hj]
      exact hpl _ (List.getElem_mem hj)
    have hne := xor_pow_ne (pl.getD j 0) k
    have hlt := xor_pow_lt (pl.getD j 0) k hbj hk
    have hsum := sum_set_add pl j (pl.getD j 0 ^^^ 2 ^ k) hj
    simp only [flip_bit, List.getD_cons_zero, List.getD_cons_succ,
      List.set_cons_zero, List.set_cons_succ]
    exact parse_mismatch_of_sum_ne _ _ _ _ _ _ _ _ _ _
      ht hb1 hb2 hb3 hb4 hb5 hb6 (by omega)

theorem single_bit_flip_detected_witness :
    create_packet 0 0 0 [] = some [0, 0, 0, 0, 0, 0, 0, 0, 0] ∧
    parse_packet (flip_bit [0, 0, 0, 0, 0, 0, 0, 0, 0] 0 0) = .error .checksumMismatch :=
  ⟨by decide, single_bit_flip_detected 0 0 0 [] [0, 0, 0, 0, 0, 0, 0, 0, 0]
    (by decide) (by decide) (by decide) (by decide) (by decide) (by decide)
    0 0 (by decide) (by decide)⟩

/-- In-flight entry stored by the sender's `sent_packets` dict:
`(packet bytes, send timestamp, start byte)`. -/
structure FlightEntry where
  packet : List Nat
  sendTime : Nat
  startByte : Nat
  deriving DecidableEq, Repr

/-- Lookup in a Python `dict` with `Nat` keys, modelled as an association
list whose operations preserve the dict's key-value semantics. -/
def mlookup {α : Type} (k : Nat) : List (Nat × α) → Option α
  | [] => none
  | (j, v) :: rest => if j = k then some v else mlookup k rest

/-- `del d[k]`. -/
def merase {α : Type} (k : Nat) : List (Nat × α) → List (Nat × α)
  | [] => []
  | (j, v) :: rest => if j = k then merase k rest else (j, v) :: merase k rest

/-- `d[k] = v` for a key already present. -/
def mset {α : Type} (k : Nat) (v : α) : List (Nat × α) → List (Nat × α)
  | [] => []
  | (j, w) :: rest =>
    if j = k then (k, v) :: mset k v rest else (j, w) :: mset k v rest

lemma mlookup_merase {α : Type} (i j : Nat) (m : List (Nat × α)) :
    mlookup j (merase i m) = if i = j then none else mlookup j m := by
  induction m with
  | nil => simp [mlookup, merase]
  | cons hd tl ih =>
    obtain ⟨a, v⟩ := hd
    by_cases hai : a = i <;> by_cases hij : i = j <;>
      simp_all [mlookup, merase]

lemma mlookup_mset {α : Type} (i j : Nat) (v : α) (m : List (Nat × α)) :
    mlookup j (mset i v m) =
      if i = j then (mlookup j m).map (fun _ => v) else mlookup j m := by
  induction m with
  | nil => simp [mlookup, mset]
  | cons hd tl ih =>
    obtain ⟨a, w⟩ := hd
    by_cases hai : a = i <;> by_cases hij : i = j <;>
      simp_all [mlookup, mset]

/-- Sender window state of the Go-Back-N transfer loop:
`base`, `next_seq_num` and the `sent_packets` dict. -/
structure SenderState where
  base : Nat
  next_seq_num : Nat
  sent_packets : List (Nat × FlightEntry)
  deriving DecidableEq, Repr

/-- The cumulative-ACK loop of `udpclient.py`
(`for i in range(base, ack_num + 1): if i in sent_packets: ...`):
remove each acknowledged in-flight index, collecting one RTT sample
(`now - send_time`) per removed index, in ascending index order. -/
def ackLoop (now : Nat) : List Nat → List (Nat × FlightEntry) →
    List (Nat × FlightEntry) × List Nat
  | [], m => (m, [])
  | i :: rest, m =>
    match mlookup i m with
    | some e =>
      let r := ackLoop now rest (merase i m)
      (r.1, (now - e.sendTime) :: r.2)
    | none => ackLoop now rest m

/-- ACK handling of the transfer loop (`if ack_num >= base: ...` in
`udpclient.py`): cumulative removal and window slide on a fresh ACK, no state
change on a duplicate or stale ACK. -/
def handle_ack (now : Nat) (st : SenderState) (ack_num : Nat) :
    SenderState × List Nat :=
  if ack_num ≥ st.base then
    let r := ackLoop now (List.range' st.base (ack_num + 1 - st.base)) st.sent_packets
    (⟨ack_num + 1, st.next_seq_num, r.1⟩, r.2)
  else
    (st, [])

/-- One receive step of the sender transfer loop: parse the datagram, drop it
when corrupt, run the ACK handler when it is an ACK packet, and ignore any
other packet type. -/
def sender_recv_step (now : Nat) (st : SenderState) (data : List Nat) :
    SenderState × List Nat :=
  match parse_packet data with
  | .error _ => (st, [])
  | .ok (t, _, ack_num, _, _, _) =>
    if t = 3 then handle_ack now st ack_num else (st, [])

lemma ackLoop_lookup (now : Nat) :
    ∀ (idxs : List Nat) (m : List (Nat × FlightEntry)) (j : Nat),
      mlookup j (ackLoop now idxs m).1 =
        if j ∈ idxs then none else mlookup j m := by
  intro idxs
  induction idxs with
  | nil => intro m j; simp [ackLoop]
  | cons i rest ih =>
    intro m j
    cases hmi : mlookup i m with
    | some e =>
      simp only [ackLoop, hmi]
      rw [ih (merase i m) j, mlookup_merase]
      by_cases h2 : i = j
      · subst h2
        by_cases h1 : i ∈ rest <;> simp [h1]
      · have h2' : ¬ j = i := fun h => h2 h.symm
        by_cases h1 : j ∈ rest <;> simp [h1, h2, h2']
    | none =>
      simp only [ackLoop, hmi]
      rw [ih m j]
      by_cases h2 : j = i
      · subst h2
        by_cases h1 : j ∈ rest <;> simp [h1, hmi]
      · by_cases h1 : j ∈ rest <;> simp [h1, h2]

lemma ackLoop_rtt_mem (now : Nat) :
    ∀ (idxs : List Nat) (m : List (Nat × FlightEntry)) (j : Nat) (e : FlightEntry),
      j ∈ idxs → mlookup j m = some e →
      (now - e.sendTime) ∈ (ackLoop now idxs m).2 := by
  intro idxs
  induction idxs with
  | nil => intro m j e hj _; simp at hj
  | cons i rest ih =>
    intro m j e hj hje
    by_cases hji : j = i
    · subst hji
      simp [ackLoop, hje]
    · have hj' : j ∈ rest := by
        rcases List.mem_cons.mp hj with h | h
        · exact absurd h hji
        · exact h
      cases hmi : mlookup i m with
      | some e2 =>
        simp only [ackLoop, hmi]
        refine List.mem_cons_of_mem _ (ih (merase i m) j e hj' ?_)
        rw [mlookup_merase, if_neg (fun h => hji h.symm)]
        exact hje
      | none =>
        simp only [ackLoop, hmi]
        exact ih m j e hj' hje

/-- C4: Sender ACK handling — on a decoded checksum-valid ACK packet with
`ack ≥ base`, every index in `[base, ack]` still present in the in-flight map
is removed (with an RTT sample `now - send_time` emitted for it), indices
outside that range are untouched, `base` becomes `ack + 1` and `next_seq_num`
is unchanged; on a decoded checksum-valid ACK with `ack < base` the sender
state is completely unchanged and nothing is emitted. -/
theorem sender_ack_handling (now : Nat) (st : SenderState) (data : List Nat)
    (s ack_num l c : Nat) (pl : List Nat)
    (hparse : parse_packet data = .ok (3, s, ack_num, l, c, pl)) :
    (st.base ≤ ack_num →
      (sender_recv_step now st data).1.base = ack_num + 1 ∧
      (sender_recv_step now st data).1.next_seq_num = st.next_seq_num ∧
      (∀ i, st.base ≤ i → i ≤ ack_num →
        mlookup i (sender_recv_step now st data).1.sent_packets = none) ∧
      (∀ i, ¬ (st.base ≤ i ∧ i ≤ ack_num) →
        mlookup i (sender_recv_step now st data).1.sent_packets =
          mlookup i st.sent_packets) ∧
      (∀ i e, st.base ≤ i → i ≤ ack_num → mlookup i st.sent_packets = some e →
        (now - e.sendTime) ∈ (sender_recv_step now st data).2)) ∧
    (ack_num < st.base → sender_recv_step now st data = (st, [])) := by
  have hstep : sender_recv_step now st data = handle_ack now st ack_num := by
    simp [sender_recv_step, hparse]
  rw [hstep]
  constructor
  · intro hle
    simp only [handle_ack]
    rw [if_pos hle]
    refine ⟨rfl, rfl, ?_, ?_, ?_⟩
    · intro i h1 h2
      rw [ackLoop_lookup, if_pos (List.mem_range'_1.mpr ⟨h1, by omega⟩)]
    · intro i hni
      rw [ackLoop_lookup, if_neg ?_]
      intro hmem
      rw [List.mem_range'_1] at hmem
      omega
    · intro i e h1 h2 he
      exact ackLoop_rtt_mem now _ _ i e (List.mem_range'_1.mpr ⟨h1, by omega⟩) he
  · intro hlt
    simp only [handle_ack]
    rw [if_neg (by omega)]

theorem sender_ack_handling_witness :
    mlookup 2 (sender_recv_step 100 ⟨1, 3, [(1, ⟨[7], 40, 0⟩), (2, ⟨[8], 50, 1⟩)]⟩
      [3, 0, 0, 0, 2, 0, 0, 0, 5]).1.sent_packets = none ∧
    (100 - 50 : Nat) ∈ (sender_recv_step 100 ⟨1, 3, [(1, ⟨[7], 40, 0⟩), (2, ⟨[8], 50, 1⟩)]⟩
      [3, 0, 0, 0, 2, 0, 0, 0, 5]).2 :=
  ⟨((sender_ack_handling 100 ⟨1, 3, [(1, ⟨[7], 40, 0⟩), (2, ⟨[8], 50, 1⟩)]⟩
      [3, 0, 0, 0, 2, 0, 0, 0, 5] 0 2 0 5 [] rfl).1 (by decide)).2.2.1 2 (by decide) (by decide),
   ((sender_ack_handling 100 ⟨1, 3, [(1, ⟨[7], 40, 0⟩), (2, ⟨[8], 50, 1⟩)]⟩
      [3, 0, 0, 0, 2, 0, 0, 0, 5] 0 2 0 5 [] rfl).1 (by decide)).2.2.2.2 2 ⟨[8], 50, 1⟩
      (by decide) (by decide) (by decide)⟩

/-- Go-Back-N retransmission loop on timeout
(`for seq_to_retransmit in range(base, next_seq_num)` in `udpclient.py`):
each index still in flight is resent with its stored packet bytes and its
send timestamp is refreshed; absent indices are skipped. -/
def timeoutLoop (now : Nat) : List Nat → List (Nat × FlightEntry) →
    List (Nat × FlightEntry) × List (List Nat)
  | [], m => (m, [])
  | i :: rest, m =>
    match mlookup i m with
    | some e =>
      let r := timeoutLoop now rest (mset i ⟨e.packet, now, e.startByte⟩ m)
      (r.1, e.packet :: r.2)
    | none => timeoutLoop now rest m

/-- The `except socket.timeout` branch of the sender transfer loop: resend
the whole current window `[base, next_seq_num)`; `base` and `next_seq_num`
are left unchanged. -/
def handle_timeout (now : Nat) (st : SenderState) :
    SenderState × List (List Nat) :=
  let r := timeoutLoop now (List.range' st.base (st.next_seq_num - st.base))
    st.sent_packets
  (⟨st.base, st.next_seq_num, r.1⟩, r.2)

lemma timeoutLoop_spec (now : Nat) :
    ∀ (idxs : List Nat) (m : List (Nat × FlightEntry)), idxs.Nodup →
      (∀ j e, j ∈ idxs → mlookup j m = some e →
        e.packet ∈ (timeoutLoop now idxs m).2 ∧
        mlookup j (timeoutLoop now idxs m).1 = some ⟨e.packet, now, e.startByte⟩) ∧
      (∀ j, j ∉ idxs → mlookup j (timeoutLoop now idxs m).1 = mlookup j m) ∧
      (∀ j, mlookup j m = none → mlookup j (timeoutLoop now idxs m).1 = none) := by
  intro idxs
  induction idxs with
  | nil =>
    intro m _
    refine ⟨fun j e hj _ => absurd hj (List.not_mem_nil j), fun j _ => rfl,
      fun j hj => ?_⟩
    simpa [timeoutLoop] using hj
  | cons i rest ih =>
    intro m hnd
    obtain ⟨hi, hrest⟩ := List.nodup_cons.mp hnd
    cases hmi : mlookup i m with
    | some e0 =>
      obtain ⟨IH1, IH2, IH3⟩ := ih (mset i ⟨e0.packet, now, e0.startByte⟩ m) hrest
      have hmset : ∀ j, j ≠ i →
          mlookup j (mset i ⟨e0.packet, now, e0.startByte⟩ m) = mlookup j m := by
        intro j hj
        rw [mlookup_mset, if_neg (fun h => hj h.symm)]
      refine ⟨?_, ?_, ?_⟩
      · intro j e hj hje
        by_cases hji : j = i
        · subst hji
          have he : e = e0 := by rw [hje] at hmi; exact Option.some.inj hmi
          subst he
          constructor
          · simp [timeoutLoop, hmi]
          · simp only [timeoutLoop, hmi]
            rw [IH2 j hi, mlookup_mset, if_pos rfl, hje]
            rfl
        · have hj' : j ∈ rest := by
            rcases List.mem_cons.mp hj with h | h
            · exact absurd h hji
            · exact h
          have hje' : mlookup j (mset i ⟨e0.packet, now, e0.startByte⟩ m) = some e :=
            (hmset j hji).trans hje
          obtain ⟨hm1, hm2⟩ := IH1 j e hj' hje'
          constructor
          · simp only [timeoutLoop, hmi]
            exact List.mem_cons_of_mem _ hm1
          · simp only [timeoutLoop, hmi]
            exact hm2
      · intro j hj
        have hji : j ≠ i := fun h => hj (h ▸ List.mem_cons_self i rest)
        have hj' : j ∉ rest := fun h => hj (List.mem_cons_of_mem i h)
        simp only [timeoutLoop, hmi]
        rw [IH2 j hj', hmset j hji]
      · intro j hjn
        have hji : j ≠ i := by
          intro h
          rw [h, hmi] at hjn
          exact Option.noConfusion hjn
        simp only [timeoutLoop, hmi]
        exact IH3 j ((hmset j hji).trans hjn)
    | none =>
      obtain ⟨IH1, IH2, IH3⟩ := ih m hrest
      refine ⟨?_, ?_, ?_⟩
      · intro j e hj hje
        have hji : j ≠ i := by
          intro h
          rw [h, hmi] at hje
          exact Option.noConfusion hje
        have hj' : j ∈ rest := by
          rcases List.mem_cons.mp hj with h | h
          · exact absurd h hji
          · exact h
        simpa only [timeoutLoop, hmi] using IH1 j e hj' hje
      · intro j hj
        have hj' : j ∉ rest := fun h => hj (List.mem_cons_of_mem i h)
        simpa only [timeoutLoop, hmi] using IH2 j hj'
      · intro j hjn
        simpa only [timeoutLoop, hmi] using IH3 j hjn

/-- C5: Go-Back-N timeout retransmission — when the sender's await-ACK step
times out, every index in `[base, next_seq_num)` present in the in-flight map
is resent with its stored packet bytes and its send timestamp refreshed to
`now`; indices outside the window are untouched, no entry is added to or
removed from the in-flight map, and neither `base` nor `next_seq_num`
changes. -/
theorem timeout_retransmits_window (now : Nat) (st : SenderState) :
    (handle_timeout now st).1.base = st.base ∧
    (handle_timeout now st).1.next_seq_num = st.next_seq_num ∧
    (∀ i e, st.base ≤ i → i < st.next_seq_num →
      mlookup i st.sent_packets = some e →
      e.packet ∈ (handle_timeout now st).2 ∧
      mlookup i (handle_timeout now st).1.sent_packets =
        some ⟨e.packet, now, e.startByte⟩) ∧
    (∀ i, i < st.base ∨ st.next_seq_num ≤ i →
      mlookup i (handle_timeout now st).1.sent_packets =
        mlookup i st.sent_packets) ∧
    (∀ i, (mlookup i (handle_timeout now st).1.sent_packets).isSome =
      (mlookup i st.sent_packets).isSome) := by
  obtain ⟨S1, S2, S3⟩ := timeoutLoop_spec now
    (List.range' st.base (st.next_seq_num - st.base)) st.sent_packets
    (List.nodup_range' _ _ 1 (by omega))
  simp only [handle_timeout]
  refine ⟨trivial, trivial, ?_, ?_, ?_⟩
  · intro i e h1 h2 he
    exact S1 i e (List.mem_range'_1.mpr ⟨h1, by omega⟩) he
  · intro i hi
    refine S2 i ?_
    intro hmem
    rw [List.mem_range'_1] at hmem
    omega
  · intro i
    cases hmi : mlookup i st.sent_packets with
    | none => simp [S3 i hmi]
    | some e =>
      by_cases hin : i ∈ List.range' st.base (st.next_seq_num - st.base)
      · simp [(S1 i e hin hmi).2]
      · simp [S2 i hin, hmi]

theorem timeout_retransmits_window_witness :
    ([7] : List Nat) ∈ (handle_timeout 90 ⟨1, 3, [(1, ⟨[7], 40, 0⟩)]⟩).2 ∧
    mlookup 1 (handle_timeout 90 ⟨1, 3, [(1, ⟨[7], 40, 0⟩)]⟩).1.sent_packets =
      some ⟨[7], 90, 0⟩ :=
  (timeout_retransmits_window 90 ⟨1, 3, [(1, ⟨[7], 40, 0⟩)]⟩).2.2.1 1 ⟨[7], 40, 0⟩
    (by decide) (by decide) (by decide)

/-- Receiver connection state of `udpserver.py`: `next_idx` (next expected
segment index), the `data_received` dict and the running byte total. -/
structure ReceiverState where
  next_idx : Nat
  data_received : List (Nat × List Nat)
  total_received : Nat
  deriving DecidableEq, Repr

/-- `d[k] = v` for a possibly absent key: replace when present, append
otherwise (Python dict insertion order). -/
def minsert {α : Type} (k : Nat) (v : α) (m : List (Nat × α)) : List (Nat × α) :=
  if (mlookup k m).isSome then mset k v m else m ++ [(k, v)]

/-- Largest key of the receiver dict (0 when empty); only used as a
termination measure for `drain`. -/
def maxKey (m : List (Nat × List Nat)) : Nat :=
  (m.map Prod.fst).foldr max 0

lemma le_maxKey_of_isSome (m : List (Nat × List Nat)) (i : Nat)
    (h : (mlookup i m).isSome) : i ≤ maxKey m := by
  induction m with
  | nil => simp [mlookup] at h
  | cons hd tl ih =>
    obtain ⟨a, v⟩ := hd
    simp only [maxKey, List.map_cons, List.foldr_cons]
    by_cases hai : a = i
    · omega
    · have h' : (mlookup i tl).isSome := by simpa [mlookup, hai] using h
      have := ih h'
      simp only [maxKey] at this
      omega

/-- The window-advance loop of the receiver
(`while next_idx in data_received: next_idx += 1`). -/
def drain (m : List (Nat × List Nat)) (i : Nat) : Nat :=
  if h : (mlookup i m).isSome then drain m (i + 1) else i
termination_by maxKey m + 1 - i
decreasing_by
  have := le_maxKey_of_isSome m i h
  omega

/-- One RECEIVING-state step of `udpserver.py` (lines 160-193): parse the
datagram, drop it when corrupt or when it is not a DATA packet; on an
in-order DATA packet store the payload, advance `next_idx` through the dict,
add the header `payload_len` to the byte total and send a cumulative ACK for
`next_idx - 1`; on an out-of-order or duplicate DATA packet leave the state
unchanged and resend the ACK for `next_idx - 1`.  Sent packets are recorded
as the `create_packet` calls made. -/
def receiver_data_step (st : ReceiverState) (data : List Nat) :
    ReceiverState × List (Option (List Nat)) :=
  match parse_packet data with
  | .error _ => (st, [])
  | .ok (packet_type, seq_num, _, payload_len, _, payload) =>
    if packet_type = 2 then
      if seq_num = st.next_idx then
        let dr := minsert seq_num payload st.data_received
        let next' := drain dr st.next_idx
        (⟨next', dr, st.total_received + payload_len⟩,
          [create_packet 3 0 (next' - 1) []])
      else
        (st, [create_packet 3 0 (st.next_idx - 1) []])
    else
      (st, [])

/-- C6: Receiver out-of-order/duplicate handling — in the RECEIVING state, on
a decoded checksum-valid DATA packet whose `seq` differs from the expected
index, the receiver does not store the payload, does not change `next_idx`,
leaves all previously stored payloads unchanged (the state is returned
exactly as it was), and sends an ACK packet carrying `next_idx - 1`. -/
theorem receiver_out_of_order (st : ReceiverState) (data : List Nat)
    (seq a l c : Nat) (payload : List Nat)
    (hparse : parse_packet data = .ok (2, seq, a, l, c, payload))
    (hseq : seq ≠ st.next_idx) :
    receiver_data_step st data = (st, [create_packet 3 0 (st.next_idx - 1) []]) := by
  simp [receiver_data_step, hparse, hseq]

theorem receiver_out_of_order_witness :
    receiver_data_step ⟨1, [], 0⟩ [2, 0, 5, 0, 0, 0, 0, 0, 7] =
      (⟨1, [], 0⟩, [create_packet 3 0 0 []]) :=
  receiver_out_of_order ⟨1, [], 0⟩ [2, 0, 5, 0, 0, 0, 0, 0, 7] 5 0 0 7 [] rfl
    (by decide)

/-- `split_random(data, Lmin, Lmax)`'s loop body from `udpclient.py`, with
`random.randint(Lmin, min(Lmax, remaining))` modelled by an oracle
`g : Nat → Nat`: the draw at step `n` is
`Lmin + g n % (min Lmax remaining - Lmin + 1)`, which ranges over exactly the
interval `[Lmin, min Lmax remaining]` of the Python call.  `fuel` bounds the
number of loop iterations: when `1 ≤ Lmin` every iteration consumes at least
one byte, so `data.length` iterations always suffice and the fueled function
agrees with the Python loop. -/
def splitAux (g : Nat → Nat) (Lmin Lmax total : Nat) (data : List Nat) :
    Nat → Nat → Nat → List (List Nat × Nat)
  | 0, _, _ => []
  | fuel + 1, current, step =>
    if current < total then
      let remaining := total - current
      let chunk_size :=
        if remaining ≤ Lmin then remaining
        else Lmin + g step % (min Lmax remaining - Lmin + 1)
      ((data.drop current).take chunk_size, current) ::
        splitAux g Lmin Lmax total data fuel (current + chunk_size) (step + 1)
    else []

/-- `split_random(data, Lmin, Lmax)` from `udpclient.py`: the output list
starts with the `('null'.encode(), 0)` placeholder chunk (`'null'` is the
bytes `[110, 117, 108, 108]`), followed by the randomly cut segments paired
with their starting byte offsets. -/
def split_random (g : Nat → Nat) (data : List Nat) (Lmin Lmax : Nat) :
    List (List Nat × Nat) :=
  ([110, 117, 108, 108], 0) ::
    splitAux g Lmin Lmax data.length data data.length 0 0

lemma splitAux_nil_of_le (g : Nat → Nat) (Lmin Lmax total : Nat)
    (data : List Nat) (fuel current step : Nat) (h : ¬ current < total) :
    splitAux g Lmin Lmax total data fuel current step = [] := by
  cases fuel with
  | zero => rfl
  | succ fuel => simp [splitAux, h]

lemma splitAux_spec (g : Nat → Nat) (Lmin Lmax : Nat) (data : List Nat)
    (h1 : 1 ≤ Lmin) (h2 : Lmin ≤ Lmax) :
    ∀ fuel current step, data.length - current ≤ fuel →
      (((splitAux g Lmin Lmax data.length data fuel current step).map
          Prod.fst).flatten = data.drop current) ∧
      (∀ i, i + 1 <
          (splitAux g Lmin Lmax data.length data fuel current step).length →
        Lmin ≤ ((splitAux g Lmin Lmax data.length data fuel current
          step).getD i ([], 0)).1.length ∧
        ((splitAux g Lmin Lmax data.length data fuel current
          step).getD i ([], 0)).1.length ≤ Lmax) := by
  intro fuel
  induction fuel with
  | zero =>
    intro current step hfuel
    constructor
    · rw [splitAux_nil_of_le g Lmin Lmax data.length data 0 current step
        (by omega)]
      simp [(List.drop_eq_nil_iff).mpr (by omega : data.length ≤ current)]
    · intro i hi
      rw [splitAux_nil_of_le g Lmin Lmax data.length data 0 current step
        (by omega)] at hi
      simp at hi
  | succ fuel ih =>
    intro current step hfuel
    by_cases hc : current < data.length
    · simp only [splitAux, if_pos hc]
      set C := if data.length - current ≤ Lmin then data.length - current
        else Lmin + g step % (min Lmax (data.length - current) - Lmin + 1)
        with hC
      have hr := Nat.mod_lt (g step)
        (show 0 < min Lmax (data.length - current) - Lmin + 1 by omega)
      have hCpos : 1 ≤ C := by
        rw [hC]; split_ifs <;> omega
      have hCle : C ≤ data.length - current := by
        rw [hC]; split_ifs <;> omega
      have hCrange : ¬ data.length - current ≤ Lmin → Lmin ≤ C ∧ C ≤ Lmax := by
        intro hb
        rw [hC, if_neg hb]
        omega
      obtain ⟨IH1, IH2⟩ := ih (current + C) (step + 1) (by omega)
      constructor
      · simp only [List.map_cons, List.flatten_cons]
        rw [IH1]
        have hdd : data.drop (current + C) = (data.drop current).drop C := by
          rw [List.drop_drop, Nat.add_comm]
        rw [hdd, List.take_append_drop]
      · intro i hi
        cases i with
        | zero =>
          simp only [List.length_cons] at hi
          by_cases hb : data.length - current ≤ Lmin
          · exfalso
            have hCval : C = data.length - current := by rw [hC, if_pos hb]
            rw [splitAux_nil_of_le g Lmin Lmax data.length data fuel
              (current + C) (step + 1) (by omega)] at hi
            simp at hi
          · obtain ⟨hg1, hg2⟩ := hCrange hb
            simp only [List.getD_cons_zero, List.length_take, List.length_drop]
            omega
        | succ i =>
          simp only [List.length_cons] at hi
          have := IH2 i (by omega)
          simpa [List.getD_cons_succ] using this
    · constructor
      · rw [splitAux_nil_of_le g Lmin Lmax data.length data (fuel + 1) current
          step hc]
        simp [(List.drop_eq_nil_iff).mpr (by omega : data.length ≤ current)]
      · intro i hi
        rw [splitAux_nil_of_le g Lmin Lmax data.length data (fuel + 1) current
          step hc] at hi
        simp at hi

/-- C7 counterexample: the claim fails as stated because `split_random`
prepends the `('null'.encode(), 0)` placeholder chunk.  With
`minLen = maxLen = 1` and payload `[97, 98]`, concatenating the whole output
yields the placeholder bytes followed by the payload, not the payload, and
the first chunk's length 4 lies outside `[minLen, maxLen] = [1, 1]`. -/
theorem split_random_claim_cex :
    ((split_random (fun _ => 0) [97, 98] 1 1).map Prod.fst).flatten =
      [110, 117, 108, 108, 97, 98] ∧
    [110, 117, 108, 108, 97, 98] ≠ [97, 98] ∧
    ((split_random (fun _ => 0) [97, 98] 1 1).getD 0 ([], 0)).1.length = 4 ∧
    ¬ (1 ≤ 4 ∧ 4 ≤ 1) := by decide

/-- C7 (amended): for every payload, every randomness oracle and all
`1 ≤ minLen ≤ maxLen`, concatenating the byte contents of the segmenter's
output from index 1 onward (i.e. skipping the `'null'` placeholder at index
0) yields exactly the payload, and every produced segment except the
placeholder and possibly the last has length in `[minLen, maxLen]`. -/
theorem split_random_reconstruction (g : Nat → Nat) (data : List Nat)
    (Lmin Lmax : Nat) (h1 : 1 ≤ Lmin) (h2 : Lmin ≤ Lmax) :
    (((split_random g data Lmin Lmax).drop 1).map Prod.fst).flatten = data ∧
    (∀ i, 1 ≤ i → i + 1 < (split_random g data Lmin Lmax).length →
      Lmin ≤ ((split_random g data Lmin Lmax).getD i ([], 0)).1.length ∧
      ((split_random g data Lmin Lmax).getD i ([], 0)).1.length ≤ Lmax) := by
  obtain ⟨H1, H2⟩ := splitAux_spec g Lmin Lmax data h1 h2 data.length 0 0
    (by omega)
  constructor
  · simpa [split_random] using H1
  · intro i hi1 hi2
    obtain ⟨j, rfl⟩ : ∃ j, i = j + 1 := ⟨i - 1, by omega⟩
    have := H2 j (by simpa [split_random] using hi2)
    simpa [split_random, List.getD_cons_succ] using this

theorem split_random_reconstruction_witness :
    (((split_random (fun _ => 0) [97, 98, 99] 1 2).drop 1).map Prod.fst).flatten
      = [97, 98, 99] ∧
    (∀ i, 1 ≤ i → i + 1 < (split_random (fun _ => 0) [97, 98, 99] 1 2).length →
      1 ≤ ((split_random (fun _ => 0) [97, 98, 99] 1 2).getD i ([], 0)).1.length ∧
      ((split_random (fun _ => 0) [97, 98, 99] 1 2).getD i ([], 0)).1.length ≤ 2) :=
  split_random_reconstruction (fun _ => 0) [97, 98, 99] 1 2 (by decide) (by decide)

/-- One channel event observed by the sender during a handshake attempt:
either the blocking receive times out or a datagram arrives (fault
injection — simulated loss and corruption, which both also send the Python
loop back to its top — is folded into the arriving bytes). -/
inductive HEvent where
  | timeout
  | recv (data : List Nat)

/-- Observable actions of the sender's handshake loop, in order. -/
inductive HAction where
  | sendSyn
  | gotTimeout
  | gotReply (packet_type : Option Nat)
  | sendEstablish
  deriving DecidableEq, Repr

/-- The handshake retry loop of `udpclient.py` (lines 144-189), driven by the
channel oracle `ev`: each iteration sends a SYN and blocks; a timeout
increments `retries`; a reply that fails to parse (recorded as
`gotReply none`) or parses to a non-SYN_ACK type sends the loop back to its
top — resending a SYN — without touching `retries`; a SYN_ACK ends the loop
successfully after the ESTABLISH packet is sent.  The loop runs while
`retries < max_handshake_retries = 5`.  The Bool is `handshake_successful`;
the action list is the observable trace.  `fuel` bounds the number of
iterations (the Python loop itself need not terminate when invalid replies
keep arriving forever). -/
def handshakeAux (ev : Nat → HEvent) : Nat → Nat → Nat → List HAction × Bool
  | 0, _, _ => ([], false)
  | fuel + 1, step, retries =>
    if retries < 5 then
      match ev step with
      | .timeout =>
        let r := handshakeAux ev fuel (step + 1) (retries + 1)
        (.sendSyn :: .gotTimeout :: r.1, r.2)
      | .recv data =>
        match parse_packet data with
        | .error _ =>
          let r := handshakeAux ev fuel (step + 1) retries
          (.sendSyn :: .gotReply none :: r.1, r.2)
        | .ok (t, _, _, _, _, _) =>
          if t = 1 then
            ([.sendSyn, .gotReply (some t), .sendEstablish], true)
          else
            let r := handshakeAux ev fuel (step + 1) retries
            (.sendSyn :: .gotReply (some t) :: r.1, r.2)
    else
      ([], false)

def isSendSyn : HAction → Bool
  | .sendSyn => true
  | _ => false

def isGotTimeout : HAction → Bool
  | .gotTimeout => true
  | _ => false

/-- Number of SYN packets sent in a trace. -/
def countSyn (tr : List HAction) : Nat := tr.countP isSendSyn

/-- Number of receive timeouts observed in a trace. -/
def countTimeout (tr : List HAction) : Nat := tr.countP isGotTimeout

/-- `if not handshake_successful: return` in `udpclient.py` — the data
transfer loop is entered exactly when the handshake succeeded. -/
def data_transfer_entered (r : List HAction × Bool) : Bool := r.2

lemma handshakeAux_all_timeout :
    ∀ fuel retries step, retries ≤ 5 → 5 - retries ≤ fuel →
      countSyn (handshakeAux (fun _ => .timeout) fuel step retries).1
        = 5 - retries ∧
      (handshakeAux (fun _ => .timeout) fuel step retries).2 = false := by
  intro fuel
  induction fuel with
  | zero =>
    intro retries step h5 hf
    refine ⟨?_, rfl⟩
    simp only [handshakeAux, countSyn, List.countP_nil]
    omega
  | succ fuel ih =>
    intro retries step h5 hf
    by_cases hr : retries < 5
    · obtain ⟨ih1, ih2⟩ := ih (retries + 1) (step + 1) (by omega) (by omega)
      simp only [handshakeAux, if_pos hr]
      refine ⟨?_, ih2⟩
      simp only [countSyn, List.countP_cons] at ih1 ⊢
      simp [isSendSyn, isGotTimeout] at ih1 ⊢
      omega
    · have hfix : handshakeAux (fun _ => HEvent.timeout) (fuel + 1) step retries
          = ([], false) := by
        simp [handshakeAux, hr]
      rw [hfix]
      refine ⟨?_, rfl⟩
      simp only [countSyn, List.countP_nil]
      omega

/-- C8: Handshake exhaustion — when every wait for a handshake reply times
out, the sender sends the SYN exactly `max_handshake_retries = 5` times, the
handshake is reported failed, and the data-transfer loop is never entered. -/
theorem handshake_exhaustion (fuel : Nat) (hf : 5 ≤ fuel) :
    countSyn (handshakeAux (fun _ => .timeout) fuel 0 0).1 = 5 ∧
    (handshakeAux (fun _ => .timeout) fuel 0 0).2 = false ∧
    data_transfer_entered (handshakeAux (fun _ => .timeout) fuel 0 0) = false := by
  obtain ⟨h1, h2⟩ := handshakeAux_all_timeout fuel 0 0 (by omega) (by omega)
  exact ⟨by simpa using h1, h2, by simpa [data_transfer_entered] using h2⟩

theorem handshake_exhaustion_witness :
    countSyn (handshakeAux (fun _ => .timeout) 5 0 0).1 = 5 ∧
    (handshakeAux (fun _ => .timeout) 5 0 0).2 = false ∧
    data_transfer_entered (handshakeAux (fun _ => .timeout) 5 0 0) = false :=
  handshake_exhaustion 5 (by decide)

/-- C9 counterexample: under the claim a new SYN is sent only after the
attempt's timeout elapses, so in every prefix of the action trace the number
of SYNs sent can be at most one more than the number of timeouts observed.
The code violates this at a concrete input: after a corrupt reply (the
too-short datagram `[0]`, received before any timeout) the loop immediately
resends a SYN — two SYNs with zero timeouts. -/
theorem handshake_invalid_reply_cex :
    (handshakeAux (fun n => if n = 0 then .recv [0] else .timeout)
        6 0 0).1.take 3 = [.sendSyn, .gotReply none, .sendSyn] ∧
    ¬ (countSyn ((handshakeAux (fun n => if n = 0 then .recv [0] else .timeout)
          6 0 0).1.take 3) ≤
        countTimeout ((handshakeAux (fun n => if n = 0 then .recv [0] else .timeout)
          6 0 0).1.take 3) + 1) := by decide

lemma handshakeAux_head (ev : Nat → HEvent) (fuel step retries : Nat)
    (hr : retries < 5) (hf : 0 < fuel) :
    (handshakeAux ev fuel step retries).1.take 1 = [.sendSyn] := by
  cases fuel with
  | zero => omega
  | succ fuel =>
    simp only [handshakeAux, if_pos hr]
    cases hev : ev step with
    | timeout => rfl
    | recv d =>
      dsimp only
      cases hp : parse_packet d with
      | error e => rfl
      | ok v =>
        obtain ⟨t, s, a, l, c, pl⟩ := v
        dsimp only
        by_cases ht : t = 1
        · simp [ht]
        · simp [ht]

/-- C9 (amended): after the sender receives a corrupt reply or a reply of a
type other than SYN_ACK, it immediately re-enters the retry loop — sending a
new SYN at once, before any timeout — without incrementing the retry
counter; the retry counter is incremented only when the receive times out. -/
theorem handshake_invalid_reply_resends (ev : Nat → HEvent)
    (fuel step retries : Nat) (hr : retries < 5) :
    (∀ d pe, ev step = .recv d → parse_packet d = .error pe →
      handshakeAux ev (fuel + 1) step retries =
        (.sendSyn :: .gotReply none ::
            (handshakeAux ev fuel (step + 1) retries).1,
          (handshakeAux ev fuel (step + 1) retries).2)) ∧
    (∀ d t s a l c pl, ev step = .recv d →
      parse_packet d = .ok (t, s, a, l, c, pl) → t ≠ 1 →
      handshakeAux ev (fuel + 1) step retries =
        (.sendSyn :: .gotReply (some t) ::
            (handshakeAux ev fuel (step + 1) retries).1,
          (handshakeAux ev fuel (step + 1) retries).2)) ∧
    (0 < fuel → (handshakeAux ev fuel (step + 1) retries).1.take 1 = [.sendSyn]) ∧
    (ev step = .timeout →
      handshakeAux ev (fuel + 1) step retries =
        (.sendSyn :: .gotTimeout ::
            (handshakeAux ev fuel (step + 1) (retries + 1)).1,
          (handshakeAux ev fuel (step + 1) (retries + 1)).2)) := by
  refine ⟨?_, ?_, ?_, ?_⟩
  · intro d pe hev hp
    simp [handshakeAux, hr, hev, hp]
  · intro d t s a l c pl hev hp ht
    simp [handshakeAux, hr, hev, hp, ht]
  · intro hf
    exact handshakeAux_head ev fuel (step + 1) retries hr hf
  · intro hev
    simp [handshakeAux, hr, hev]

theorem handshake_invalid_reply_resends_witness :
    handshakeAux (fun n => if n = 0 then .recv [0] else .timeout) 6 0 0 =
      (.sendSyn :: .gotReply none ::
          (handshakeAux (fun n => if n = 0 then .recv [0] else .timeout) 5 1 0).1,
        (handshakeAux (fun n => if n = 0 then .recv [0] else .timeout) 5 1 0).2) ∧
    (handshakeAux (fun n => if n = 0 then .recv [0] else .timeout) 5 1 0).1.take 1 =
      [.sendSyn] :=
  ⟨(handshake_invalid_reply_resends (fun n => if n = 0 then .recv [0] else .timeout)
      5 0 0 (by decide)).1 [0] .tooShort rfl rfl,
   (handshake_invalid_reply_resends (fun n => if n = 0 then .recv [0] else .timeout)
      5 0 0 (by decide)).2.2.1 (by decide)⟩

/-- The ESTABLISH packet the client sends on a successful handshake:
`create_packet(4, len_segments)` — the segment count is passed as `seq_num`,
with `ack_num` left at its default 0 and an empty payload. -/
def establish_message (len_segments : Nat) : Option (List Nat) :=
  create_packet 4 len_segments 0 []

/-- Server handshake state of `udpserver.py`: the two handshake flags and
`total_num`, which is overwritten with the `seq` field of every successfully
parsed handshake packet
(`packet_type, total_num, _, _, _, _ = parse_packet(data)`). -/
structure ServerHandshakeState where
  handshake_successful1 : Bool
  handshake_successful2 : Bool
  total_num : Nat
  deriving DecidableEq, Repr

/-- One iteration of the server handshake loop (lines 107-133 of
`udpserver.py`): on a parsed SYN reply with SYN_ACK and set the first flag;
on a parsed ESTABLISH set the second flag; ignore corrupt data; `total_num`
is taken from the `seq` field of whatever parsed. -/
def server_handshake_step (st : ServerHandshakeState) (data : List Nat) :
    ServerHandshakeState × List (Option (List Nat)) :=
  match parse_packet data with
  | .error _ => (st, [])
  | .ok (packet_type, seq_num, _, _, _, _) =>
    if packet_type = 0 then
      (⟨true, st.handshake_successful2, seq_num⟩, [create_packet 1 0 0 []])
    else if packet_type = 4 then
      (⟨st.handshake_successful1, true, seq_num⟩, [])
    else
      (⟨st.handshake_successful1, st.handshake_successful2, seq_num⟩, [])

/-- C3 counterexample: the ESTABLISH packet built for a 7-segment transfer
(`create_packet(4, 7)`) parses with `ack = 0`, not 7 — the total-segment
count does not travel in the `ack` field. -/
theorem establish_ack_field_cex :
    parse_packet ((establish_message 7).getD []) = .ok (4, 7, 0, 0, 11, []) ∧
    (0 : Nat) ≠ 7 :=
  ⟨rfl, by decide⟩

/-- C3 (amended): the ESTABLISH packet carries the total-segment count in its
`seq` field, with `ack = 0`: when the sender transitions to TRANSFERRING it
sends `create_packet(4, len_segments)`, whose parse yields
`seq = len_segments` and `ack = 0`, and the receiver records `total_num` from
that `seq` field (setting its second handshake flag). -/
theorem establish_seq_field_carries_count (n : Nat) (st : ServerHandshakeState)
    (hn : n < 65536) :
    parse_packet ((establish_message n).getD []) =
      .ok (4, n, 0, 0, create_checksum 4 n 0 [], []) ∧
    (server_handshake_step st ((establish_message n).getD [])).1.total_num = n ∧
    (server_handshake_step st
      ((establish_message n).getD [])).1.handshake_successful2 = true := by
  have hp : parse_packet ((establish_message n).getD []) =
      .ok (4, n, 0, 0, create_checksum 4 n 0 [], []) := by
    simpa [establish_message] using
      create_parse_roundtrip 4 n 0 [] (by omega) hn (by omega) (by decide)
  refine ⟨hp, ?_, ?_⟩ <;> simp [server_handshake_step, hp]

theorem establish_seq_field_carries_count_witness :
    parse_packet ((establish_message 7).getD []) =
      .ok (4, 7, 0, 0, create_checksum 4 7 0 [], []) ∧
    (server_handshake_step ⟨false, false, 0⟩
      ((establish_message 7).getD [])).1.total_num = 7 ∧
    (server_handshake_step ⟨false, false, 0⟩
      ((establish_message 7).getD [])).1.handshake_successful2 = true :=
  establish_seq_field_carries_count 7 ⟨false, false, 0⟩ (by decide)

/-- C10: packet parsing never checks the `payloadLength` header field against
the actual number of payload bytes: this 9-byte packet declares
`payloadLength = 5` but carries no payload bytes at all; its checksum
matches, so `parse_packet` succeeds and returns the inconsistent
`payloadLength = 5` alongside the actual (empty) payload slice. -/
theorem payload_length_not_validated :
    parse_packet [2, 0, 0, 0, 0, 0, 5, 0, 7] = .ok (2, 0, 0, 5, 7, []) ∧
    (5 : Nat) ≠ ([] : List Nat).length :=
  ⟨rfl, by decide⟩
